import Mathlib

set_option maxHeartbeats 1000000

/-!
Verification development for the two-person video call orchestration layer
(React hook useTwoPersonCall and its helpers).  The definitions below are a
shallow embedding of the source: state setters become record updates, refs
become record fields, async external capabilities (media acquisition, offer
and answer synthesis, the remote translation service, channel readiness at
each observation point) become explicit oracle parameters, and the error
messages the code assigns with setError become constructors of CallError.
-/

/-- The CallPhase union type of the source. -/
inductive CallPhase
  | idle
  | mediaReady
  | waitingOffer
  | waitingAnswer
  | connected
  | ended
deriving DecidableEq

/-- The Role union type of the source; the null role is modelled as none. -/
inductive Role
  | host
  | guest
deriving DecidableEq

/-- Each constructor corresponds to one fixed message string the source
passes to setError.  roleMismatchHost is the message used when a host-only
operation is invoked by a non host; alreadyOffered is the connection-code
already-generated message; offerAlreadyCreated is the offer-already-created
message guarded by localDescription; alreadyApplied is the response-code
already-applied message; noOfferYet asks to generate a connection code
first; invalidPayload is the invalid-connection-data parse failure message;
wrongNegotiationState is the invalid-connection-state message;
mediaAccessDenied is the camera or microphone access failure message. -/
inductive CallError
  | roleMismatchHost
  | roleMismatchGuest
  | alreadyOffered
  | offerAlreadyCreated
  | createOfferFailed
  | alreadyApplied
  | noOfferYet
  | invalidPayload
  | wrongNegotiationState
  | applyAnswerFailed
  | mediaAccessDenied
deriving DecidableEq

/-- A session description as serialized by the signaling codec: the type
field and the sdp body, both as character lists (descType because type is a
reserved word). -/
structure SessionDesc where
  descType : List Char
  sdp : List Char
deriving DecidableEq

/-- The RTCPeerConnection fields the orchestration layer reads or writes:
local and remote descriptions, signalingState, iceConnectionState,
iceGatheringState (as their string values in the source), and the ids of
the media tracks attached via addTrack. -/
structure PeerConn where
  localDesc : Option SessionDesc
  remoteDesc : Option SessionDesc
  signaling : String
  iceConn : String
  iceGathering : String
  senderTracks : List Nat
deriving DecidableEq

/-- A scheduled translation request: the debounced call to translateText
carrying the caption text, its source language, and the target language
captured from translationLanguage when the debounce was armed. -/
structure TransReq where
  text : String
  srcLang : String
  tgtLang : String
deriving DecidableEq

/-- The state of the hook: the useState values, plus the refs (peer
connection, local stream as track ids, data channel readyState string,
recognition generation id, the pending debounced translation). -/
structure SessionState where
  role : Option Role
  phase : CallPhase
  error : Option CallError
  isBusy : Bool
  offerPayload : List Char
  answerPayload : List Char
  captionsLanguage : String
  localCaption : String
  remoteCaption : String
  remoteCaptionTranslated : String
  translationLanguage : String
  remoteCaptionLanguage : String
  pendingTranslation : Option TransReq
  pc : Option PeerConn
  localStream : Option (List Nat)
  dataChannel : Option String
  recognition : Option Nat
deriving DecidableEq

/-- stopRecognition: detaches the recognizer callbacks, stops it, clears the
recognition ref and the local caption. -/
def stopRecognition (s : SessionState) : SessionState :=
  { s with recognition := none, localCaption := "" }

/-- resetState of part_001: returns every useState value to its initial
value, clears the remote caption language ref and cancels the pending
translation debounce timer. -/
def resetState (s : SessionState) : SessionState :=
  { s with
    phase := .idle
    role := none
    error := none
    isBusy := false
    offerPayload := []
    answerPayload := []
    localCaption := ""
    remoteCaption := ""
    remoteCaptionTranslated := ""
    remoteCaptionLanguage := "en-US"
    pendingTranslation := none }

/-- cleanupPeerConnection: stops all sender tracks, closes and clears the
peer connection, stops and clears the local stream, clears the video
elements and the data channel ref, then stopRecognition. -/
def cleanupPeerConnection (s : SessionState) : SessionState :=
  stopRecognition { s with pc := none, localStream := none, dataChannel := none }

/-- hangUp: cleanupPeerConnection followed by resetState. -/
def hangUp (s : SessionState) : SessionState :=
  resetState (cleanupPeerConnection s)

/-- startLocalMedia: if a local stream is cached, only advance the phase to
media-ready; otherwise request camera and microphone (the oracle media is
some tracks when granted, none when denied), store the stream and advance
the phase on success, set the MediaAccessDenied message on failure; isBusy
is set and then cleared by the finally block. -/
def startLocalMedia (s : SessionState) (media : Option (List Nat)) : SessionState :=
  if s.localStream.isSome then { s with phase := .mediaReady }
  else
    match media with
    | some tracks =>
        { s with localStream := some tracks, phase := .mediaReady, isBusy := false }
    | none =>
        { s with error := some .mediaAccessDenied, isBusy := false }

/-- startAsHost: fixes the host role, runs startLocalMedia, then
unconditionally advances the phase to waiting-offer. -/
def startAsHost (s : SessionState) (media : Option (List Nat)) : SessionState :=
  let s1 := startLocalMedia { s with role := some .host } media
  { s1 with phase := .waitingOffer }

/-- startAsGuest: fixes the guest role, runs startLocalMedia, then
unconditionally advances the phase to waiting-offer. -/
def startAsGuest (s : SessionState) (media : Option (List Nat)) : SessionState :=
  let s1 := startLocalMedia { s with role := some .guest } media
  { s1 with phase := .waitingOffer }

/-- ensurePeerConnection: returns the existing peer connection unchanged if
present; otherwise constructs a fresh one (stable signaling, new ice
states, no descriptions) with the already-acquired local tracks attached,
and stores it in the ref. -/
def ensurePeerConnection (s : SessionState) : SessionState × PeerConn :=
  match s.pc with
  | some pc => (s, pc)
  | none =>
      let pc : PeerConn :=
        { localDesc := none
          remoteDesc := none
          signaling := "stable"
          iceConn := "new"
          iceGathering := "new"
          senderTracks := s.localStream.getD [] }
      ({ s with pc := some pc }, pc)

/-!
Signaling codec.  Encoding is JSON.stringify of the gathered local
description, an object with the type field then the sdp field.  Decoding
models the inline parse block of applyRemoteOfferAndCreateAnswer and
applyRemoteAnswer in part_001: trim, strip one leading byte order mark,
replace the input by the greedy regex match from the first opening brace to
the last closing brace when such a match exists, then JSON.parse followed
by use as a session description (a non-object JSON value is rejected by the
RTCSessionDescription constructor, so the parser below accepts exactly the
session-description object grammar that encode produces; every input any
theorem below evaluates it on is rejected or accepted identically by
JSON.parse plus that constructor).  Brace characters are written with hex
escapes throughout.
-/

/-- escChar: the JSON string escaping of one character as performed by
JSON.stringify, restricted to the escapes that session descriptions use
(quote, backslash, newline, carriage return, tab; all other characters are
emitted verbatim). -/
def escChar (c : Char) : List Char :=
  if c = '\"' then ['\\', '\"']
  else if c = '\\' then ['\\', '\\']
  else if c = '\n' then ['\\', 'n']
  else if c = '\r' then ['\\', 'r']
  else if c = '\t' then ['\\', 't']
  else [c]

/-- escape: JSON string escaping of a character list. -/
def escape : List Char → List Char
  | [] => []
  | c :: cs => escChar c ++ escape cs

/-- unescChar: the inverse table of escChar used by the parser; escapes
outside this table make the parse fail. -/
def unescChar (c : Char) : Option Char :=
  if c = '\"' then some '\"'
  else if c = '\\' then some '\\'
  else if c = 'n' then some '\n'
  else if c = 'r' then some '\r'
  else if c = 't' then some '\t'
  else none

/-- parseStringBody: parses the body of a JSON string after the opening
quote, returning the unescaped contents and the remainder after the closing
quote. -/
def parseStringBody : List Char → Option (List Char × List Char)
  | [] => none
  | c :: rest =>
      if c = '\"' then some ([], rest)
      else if c = '\\' then
        match rest with
        | [] => none
        | e :: rest2 =>
            match unescChar e with
            | none => none
            | some u =>
                match parseStringBody rest2 with
                | none => none
                | some (sctx, r) => some (u :: sctx, r)
      else
        match parseStringBody rest with
        | none => none
        | some (sctx, r) => some (c :: sctx, r)
termination_by structural l => l

/-- parseLit: consumes an exact literal character sequence, returning the
remainder. -/
def parseLit : List Char → List Char → Option (List Char)
  | [], t => some t
  | _ :: _, [] => none
  | c :: cs, t0 :: ts => if t0 = c then parseLit cs ts else none

/-- typeKeyTail: the serialized object opener after the opening brace,
through the opening quote of the type value. -/
def typeKeyTail : List Char :=
  ['\"', 't', 'y', 'p', 'e', '\"', ':', '\"']

/-- typeKey: the serialized object opener, an opening brace followed by the
quoted type key and the opening quote of its value. -/
def typeKey : List Char := '\x7b' :: typeKeyTail

/-- sdpKey: the separator between the type value and the sdp value: comma,
quoted sdp key, colon, opening quote. -/
def sdpKey : List Char :=
  [',', '\"', 's', 'd', 'p', '\"', ':', '\"']

/-- parseDesc: the session-description object grammar: opening brace, type
key, a JSON string, sdp key, a JSON string, closing brace, end of input. -/
def parseDesc (t : List Char) : Option SessionDesc :=
  match parseLit typeKey t with
  | none => none
  | some t1 =>
      match parseStringBody t1 with
      | none => none
      | some (ty, t2) =>
          match parseLit sdpKey t2 with
          | none => none
          | some t3 =>
              match parseStringBody t3 with
              | none => none
              | some (sd, t4) =>
                  if t4 = ['\x7d'] then some ⟨ty, sd⟩ else none

/-- encode: JSON.stringify of the gathered session description. -/
def encode (d : SessionDesc) : List Char :=
  typeKey ++ escape d.descType ++ '\"' :: sdpKey ++ escape d.sdp ++ '\"' :: ['\x7d']

/-- isJsSpace: the whitespace class of the JavaScript trim method on the
characters relevant here (space, tab, line feed, carriage return, vertical
tab, form feed, no-break space, and the byte order mark, which JavaScript
counts as whitespace). -/
def isJsSpace (c : Char) : Bool :=
  c = ' ' || c = '\t' || c = '\n' || c = '\r' || c = '\x0b' || c = '\x0c' ||
    c = '\u00A0' || c = '\uFEFF'

/-- trimJs: the trim call, dropping whitespace from both ends. -/
def trimJs (l : List Char) : List Char :=
  ((l.dropWhile isJsSpace).reverse.dropWhile isJsSpace).reverse

/-- stripBom: the replace call removing one leading byte order mark. -/
def stripBom (l : List Char) : List Char :=
  match l with
  | c :: rest => if c = '\uFEFF' then rest else l
  | [] => []

/-- extractBraces: the greedy regex match from the first opening brace to
the last closing brace; when the regex does not match (no opening brace
followed somewhere by a closing brace) the input is left unchanged. -/
def extractBraces (l : List Char) : List Char :=
  let t1 := l.dropWhile (fun c => c != '\x7b')
  let t2 := (t1.reverse.dropWhile (fun c => c != '\x7d')).reverse
  if t2.isEmpty then l else t2

/-- decode: the full inbound payload path: trim, strip the byte order mark,
extract the greedy brace span, parse. -/
def decode (l : List Char) : Option SessionDesc :=
  parseDesc (extractBraces (stripBom (trimJs l)))

/-- jsonSafe: characters for which the restricted escape table above agrees
with JSON.stringify (printable characters plus newline, carriage return and
tab; other control characters would be emitted as unicode escapes). -/
def jsonSafe (c : Char) : Bool :=
  32 ≤ c.toNat || c = '\n' || c = '\r' || c = '\t'

/-- safeDesc: both fields of the description contain only jsonSafe
characters, the range on which the codec model is exact. -/
def safeDesc (d : SessionDesc) : Prop :=
  d.descType.all jsonSafe = true ∧ d.sdp.all jsonSafe = true

instance : DecidablePred safeDesc := fun d => by
  unfold safeDesc; infer_instance

/-- braceFree: the character list contains neither brace character. -/
def braceFree (l : List Char) : Prop :=
  '\x7b' ∉ l ∧ '\x7d' ∉ l

instance : DecidablePred braceFree := fun l => by
  unfold braceFree; infer_instance

/-!
Peer session operations.  The async externals of createOffer (offer
synthesis, setLocalDescription, the candidate gathering wait) are folded
into an oracle: when they succeed, the local description observed after
gathering completion is the oracle value gatheredDesc; when any of them
rejects, the catch block runs.
-/

/-- OfferEnv: the external outcome of the offer synthesis path; fails
models a rejection of createOffer or setLocalDescription, gatheredDesc the
local description read back after candidate gathering completes. -/
structure OfferEnv where
  fails : Bool
  gatheredDesc : SessionDesc
deriving DecidableEq

/-- createOffer of part_001 and useTwoPersonCall.ts: host-only guard, the
offer-payload guard, ensurePeerConnection, the localDescription guard, lazy
creation of the captions data channel, attachment of not-yet-attached local
tracks, then offer synthesis, the gathering wait, and publication of the
serialized local description as the offer payload; errors from the async
part land in the catch block, and the finally block clears isBusy. -/
def createOffer (s0 : SessionState) (env : OfferEnv) : SessionState :=
  if s0.role ≠ some .host then { s0 with error := some .roleMismatchHost }
  else if s0.offerPayload ≠ [] then { s0 with error := some .alreadyOffered }
  else
    let s1 := { s0 with isBusy := true }
    let sp := ensurePeerConnection s1
    let s2 := sp.1
    let pc := sp.2
    if pc.localDesc.isSome then
      { s2 with error := some .offerAlreadyCreated, isBusy := false }
    else
      let s3 :=
        if s2.dataChannel.isNone then { s2 with dataChannel := some "connecting" }
        else s2
      let tracks := s3.localStream.getD []
      let pc1 :=
        { pc with
          senderTracks :=
            pc.senderTracks ++ tracks.filter (fun t => ¬ pc.senderTracks.contains t) }
      if env.fails then
        { s3 with pc := some pc1, error := some .createOfferFailed, isBusy := false }
      else
        let pc2 :=
          { pc1 with
            localDesc := some env.gatheredDesc
            signaling := "have-local-offer"
            iceGathering := "complete" }
        { s3 with
          pc := some pc2
          offerPayload := encode env.gatheredDesc
          isBusy := false }

/-- AnswerEnv: the external outcome of setRemoteDescription on the answer;
applyFails models its rejection. -/
structure AnswerEnv where
  applyFails : Bool
deriving DecidableEq

/-- applyRemoteAnswer of part_001 and useTwoPersonCall.ts: host-only guard;
ensurePeerConnection; if a remote description is already applied, set the
already-applied message and additionally set the phase to connected when
the ice connection state already reports connected or completed; otherwise
require a local description (offer), parse the pasted payload via the
decode path, require signaling state have-local-offer, then apply the
remote description and set the phase to connected; the finally block
clears isBusy on every path past the role guard. -/
def applyRemoteAnswer (s0 : SessionState) (input : List Char) (env : AnswerEnv) :
    SessionState :=
  if s0.role ≠ some .host then { s0 with error := some .roleMismatchHost }
  else
    let s1 := { s0 with isBusy := true }
    let sp := ensurePeerConnection s1
    let s2 := sp.1
    let pc := sp.2
    if pc.remoteDesc.isSome then
      if pc.iceConn = "connected" ∨ pc.iceConn = "completed" then
        { s2 with error := some .alreadyApplied, phase := .connected, isBusy := false }
      else
        { s2 with error := some .alreadyApplied, isBusy := false }
    else if pc.localDesc.isNone then
      { s2 with error := some .noOfferYet, isBusy := false }
    else
      match decode input with
      | none => { s2 with error := some .invalidPayload, isBusy := false }
      | some answer =>
          if pc.signaling ≠ "have-local-offer" then
            { s2 with error := some .wrongNegotiationState, isBusy := false }
          else if env.applyFails then
            { s2 with error := some .applyAnswerFailed, isBusy := false }
          else
            { s2 with
              pc := some { pc with remoteDesc := some answer, signaling := "stable" }
              phase := .connected
              isBusy := false }

/-!
Caption channel receiver and translation relay.  An inbound message body is
modelled after JSON.parse: either unparseable (the catch block swallows it)
or a parsed value carrying the kind, text, language and timestamp fields.
-/

/-- WireMsg: an inbound data channel message after JSON.parse: unparseable
bodies raise inside the try and are swallowed; parsed bodies expose the
kind, text, language and timestamp fields the handler reads. -/
inductive WireMsg
  | unparseable
  | parsed (kind : String) (text : String) (language : String) (timestamp : Int)
deriving DecidableEq

/-- wireKind: the kind field of a message, none when unparseable. -/
def wireKind : WireMsg → Option String
  | .unparseable => none
  | .parsed kind _ _ _ => some kind

/-- trimString: the JavaScript trim call on a caption text, modelled over
the character list so that it evaluates definitionally. -/
def trimString (s : String) : String :=
  String.mk (((s.toList.dropWhile Char.isWhitespace).reverse.dropWhile
    Char.isWhitespace).reverse)

/-- translateRemoteCaption of part_001 (synchronous part): blank text or an
English target clears the displayed translation and returns before touching
the debounce timer; otherwise the pending timer is cancelled and a new
debounced request is armed carrying the current target language. -/
def translateRemoteCaption (s : SessionState) (text srcLang : String) : SessionState :=
  if trimString text = "" ∨ s.translationLanguage = "en" then
    { s with remoteCaptionTranslated := "" }
  else
    { s with pendingTranslation := some ⟨text, srcLang, s.translationLanguage⟩ }

/-- onCaptionMessage: the channel onmessage handler of part_001 (identical
on the host channel created in createOffer and on the guest channel
received via ondatachannel): parse failures are ignored; a parsed message
whose kind is caption updates the remote caption and its language ref, then
triggers translateRemoteCaption when the target language is truthy and not
English, else clears the displayed translation; any other kind is
ignored. -/
def onCaptionMessage (s : SessionState) (m : WireMsg) : SessionState :=
  match m with
  | .unparseable => s
  | .parsed kind text lang _ts =>
      if kind = "caption" then
        let s1 := { s with remoteCaption := text, remoteCaptionLanguage := lang }
        if s1.translationLanguage ≠ "" ∧ s1.translationLanguage ≠ "en" then
          translateRemoteCaption s1 text lang
        else { s1 with remoteCaptionTranslated := "" }
      else s

/-- baseLang: the base language code before the first dash, as computed by
translateText via split. -/
def baseLang (lang : String) : String :=
  String.mk (lang.toList.takeWhile (fun c => c != '-'))

/-- RemoteResult: the outcome of the remote translation fetch, already
reduced to the joined translated text (ok) or any failure (fail), covering
both a non-ok response and a thrown fetch error. -/
inductive RemoteResult
  | ok (text : String)
  | fail
deriving DecidableEq

/-- translateText of the translation utility: returns the input unchanged
without any remote call when source equals target, when the text is blank,
or when the base language codes coincide; otherwise performs the remote
call, falling back to the input text when the response is empty or the call
fails.  The Bool records whether a remote call was made. -/
def translateText (remote : RemoteResult) (text src tgt : String) :
    String × Bool :=
  if src = tgt ∨ trimString text = "" then (text, false)
  else if baseLang src = baseLang tgt then (text, false)
  else
    match remote with
    | .ok t => (if t = "" then text else t, true)
    | .fail => (text, true)

/-!
Translation relay event model for the in-flight behaviour.  The debounce
timer and the dispatched translateText promises of part_001 are modelled as
an explicit event system: issue is a call to translateRemoteCaption with
the current target language, fire is the debounce timer elapsing (the
dispatch of translateText), and complete is the resolution of one
dispatched promise whose continuation stores the result into the displayed
translation.  Requests are tagged with ids only to name them in the model;
the code itself carries no identifiers, which is exactly why completions
apply in arrival order.
-/

/-- TransState: displayed translation, the armed debounce timer with its
request, the dispatched but unresolved requests, a fresh-id counter and the
isTranslating flag. -/
structure TransState where
  displayed : String
  pending : Option (Nat × TransReq)
  inFlight : List (Nat × TransReq)
  nextId : Nat
  translating : Bool
deriving DecidableEq

/-- TransEvent: a call to translateRemoteCaption, the debounce timer
firing, or the resolution of a dispatched request. -/
inductive TransEvent
  | issue (text srcLang tgtLang : String)
  | fire
  | complete (id : Nat) (result : String)
deriving DecidableEq

/-- transStep: one event of the translation relay.  issue with blank text
or an English target clears the display; otherwise it replaces the armed
timer (clearTimeout plus setTimeout).  fire dispatches the armed request.
complete of a dispatched request unconditionally stores its result as the
displayed translation and clears the translating flag. -/
def transStep (s : TransState) : TransEvent → TransState
  | .issue text src tgt =>
      if trimString text = "" ∨ tgt = "en" then { s with displayed := "" }
      else
        { s with
          pending := some (s.nextId, ⟨text, src, tgt⟩)
          nextId := s.nextId + 1 }
  | .fire =>
      match s.pending with
      | none => s
      | some (i, r) =>
          { s with
            pending := none
            inFlight := s.inFlight ++ [(i, r)]
            translating := true }
  | .complete i res =>
      if s.inFlight.any (fun p => p.1 == i) then
        { s with
          displayed := res
          translating := false
          inFlight := s.inFlight.filter (fun p => p.1 != i) }
      else s

/-- transRun: folds a list of events over the relay state. -/
def transRun (s : TransState) : List TransEvent → TransState
  | [] => s
  | e :: es => transRun (transStep s e) es

/-!
Recognizer restart guard and caption sender.
-/

/-- RecState: the fields the end-of-stream handler reads: the call phase
and the identity of the recognizer generation currently installed in the
ref (none when cleared). -/
structure RecState where
  phase : CallPhase
  current : Option Nat
deriving DecidableEq

/-- recognitionOnEnd: the immediate part of the onend handler of generation
g: when the phase is connected and g is still the installed generation, a
restart timer is scheduled (the returned Bool); otherwise the ref is
cleared and no timer is scheduled. -/
def recognitionOnEnd (s : RecState) (g : Nat) : RecState × Bool :=
  if s.phase = .connected ∧ s.current = some g then (s, true)
  else ({ s with current := none }, false)

/-- recognitionRestartTimer: the body of the scheduled restart timer of
generation g, evaluated against the state at fire time: start is invoked
exactly when the phase is still connected and g is still the installed
generation. -/
def recognitionRestartTimer (s : RecState) (g : Nat) : Bool :=
  if s.phase = .connected ∧ s.current = some g then true else false

/-- SendOutcome: what happens to one finalized utterance in sendCaption. -/
inductive SendOutcome
  | sentNow
  | sentOnRetry
  | gaveUp
deriving DecidableEq

/-- sendCaption of part_001: the channel readyState is observed at the
initial attempt (ready0, none when no channel exists) and, when that
observation is not open, once more when the single retry timer fires
(ready1); the message is sent on the first open observation and otherwise
dropped silently. -/
def sendCaption (ready0 ready1 : Option String) : SendOutcome :=
  if ready0 = some "open" then .sentNow
  else if ready1 = some "open" then .sentOnRetry
  else .gaveUp

/-!
Concrete states used by counterexamples and witnesses.
-/

/-- baseState: the initial hook state (all useState initials, empty refs). -/
def baseState : SessionState :=
  { role := none
    phase := .idle
    error := none
    isBusy := false
    offerPayload := []
    answerPayload := []
    captionsLanguage := "en-US"
    localCaption := ""
    remoteCaption := ""
    remoteCaptionTranslated := ""
    translationLanguage := "en"
    remoteCaptionLanguage := "en-US"
    pendingTranslation := none
    pc := none
    localStream := none
    dataChannel := none
    recognition := none }

/-- exampleDesc: a small concrete session description. -/
def exampleDesc : SessionDesc := ⟨"offer".toList, "v=0".toList⟩

/-- pcAnswered: a peer connection on which both descriptions are applied
and the transport reports connected. -/
def pcAnswered : PeerConn :=
  { localDesc := some exampleDesc
    remoteDesc := some ⟨"answer".toList, "v=0".toList⟩
    signaling := "stable"
    iceConn := "connected"
    iceGathering := "complete"
    senderTracks := [1] }

/-- exConnected: a host mid-call with media, channel and recognizer
active. -/
def exConnected : SessionState :=
  { baseState with
    role := some .host
    phase := .connected
    offerPayload := encode exampleDesc
    pc := some pcAnswered
    localStream := some [1, 2]
    dataChannel := some "open"
    recognition := some 3
    localCaption := "hello"
    remoteCaption := "hi" }

/-- C4 counterexample. The claim says an explicit hang-up is a transition
to the terminal Ended phase; on the code, hangUp ends in resetState, which
sets the phase to idle.  At the concrete connected state the post-hang-up
phase is idle, not ended. -/
theorem c4_counterexample :
    (hangUp exConnected).phase = CallPhase.idle ∧
      (hangUp exConnected).phase ≠ CallPhase.ended := by
  decide

/-- C4 (amended): an explicit hang-up is a single unconditional transition,
available in every state, to the initial Idle phase (a full reset of the
session, not the Ended phase); it releases every resource (peer
connection, local media, data channel, recognizer, pending translation
timer) and is idempotent. -/
theorem c4_hangUp_reset (s : SessionState) :
    (hangUp s).phase = CallPhase.idle ∧
      (hangUp s).pc = none ∧
      (hangUp s).localStream = none ∧
      (hangUp s).dataChannel = none ∧
      (hangUp s).recognition = none ∧
      (hangUp s).pendingTranslation = none ∧
      hangUp (hangUp s) = hangUp s := by
  refine ⟨rfl, rfl, rfl, rfl, rfl, rfl, rfl⟩

/-- C10: startAsHost and startAsGuest always finish in the waiting-offer
phase, even when media acquisition is denied (in which case the
MediaAccessDenied message is set but the phase is still advanced past
idle unconditionally). -/
theorem c10_start_phase_waiting_offer (s : SessionState) (media : Option (List Nat)) :
    (startAsHost s media).phase = CallPhase.waitingOffer ∧
      (startAsGuest s media).phase = CallPhase.waitingOffer ∧
      (s.localStream = none → media = none →
        (startAsHost s media).error = some CallError.mediaAccessDenied) := by
  refine ⟨rfl, rfl, fun hs hm => ?_⟩
  simp [startAsHost, startLocalMedia, hs, hm]

/-- C10 witness: at the initial state with media denied, the phase still
reaches waiting-offer and the media error is set. -/
theorem c10_witness :
    (startAsHost baseState none).phase = CallPhase.waitingOffer ∧
      (startAsGuest baseState none).phase = CallPhase.waitingOffer ∧
      (baseState.localStream = none → none = (none : Option (List Nat)) →
        (startAsHost baseState none).error = some CallError.mediaAccessDenied) :=
  c10_start_phase_waiting_offer baseState none

/-- C5: an inbound caption channel message that is unparseable, or whose
kind field is not caption, leaves the hook state entirely unchanged (in
particular the remote caption state); the handler is total, so the session
cannot crash on it. -/
theorem c5_malformed_caption_discarded (s : SessionState) (m : WireMsg)
    (h : m = WireMsg.unparseable ∨ wireKind m ≠ some "caption") :
    onCaptionMessage s m = s := by
  cases m with
  | unparseable => rfl
  | parsed kind text lang ts =>
      rcases h with h | h
      · exact absurd h (by simp)
      · simp only [wireKind] at h
        have hk : kind ≠ "caption" := by
          intro hh; exact h (by rw [hh])
        simp [onCaptionMessage, hk]

/-- C5 witness: a ping message at the connected state is discarded. -/
theorem c5_witness :
    onCaptionMessage exConnected (WireMsg.parsed "ping" "x" "en-US" 0) = exConnected :=
  c5_malformed_caption_discarded exConnected (WireMsg.parsed "ping" "x" "en-US" 0)
    (Or.inr (by decide))

/-- C8: the end-of-stream restart path of a recognizer generation g never
invokes start unless g is still the installed generation: a stale
generation neither schedules a restart timer (first conjunct) nor, if its
timer were pending, starts a recognizer at fire time; conversely a restart
only ever happens for the generation that is current, with the phase still
connected, so a restart never creates a second concurrent recognizer. -/
theorem c8_stale_generation_no_restart :
    (∀ (s : RecState) (g : Nat), s.current ≠ some g →
        (recognitionOnEnd s g).2 = false ∧ recognitionRestartTimer s g = false) ∧
      (∀ (s : RecState) (g : Nat), recognitionRestartTimer s g = true →
        s.phase = CallPhase.connected ∧ s.current = some g) := by
  constructor
  · intro s g h
    constructor
    · simp [recognitionOnEnd, h]
    · simp [recognitionRestartTimer, h]
  · intro s g h
    by_cases hc : s.phase = CallPhase.connected ∧ s.current = some g
    · exact hc
    · simp [recognitionRestartTimer, hc] at h

/-- C8 witness: generation 4 whose end event fires while generation 5 is
current does not restart. -/
theorem c8_witness :
    (recognitionOnEnd ⟨CallPhase.connected, some 5⟩ 4).2 = false ∧
      recognitionRestartTimer ⟨CallPhase.connected, some 5⟩ 4 = false :=
  c8_stale_generation_no_restart.1 ⟨CallPhase.connected, some 5⟩ 4 (by decide)

/-- C9: for one finalized utterance, the sender sends immediately exactly
when the channel reports open at the first observation; otherwise it sends
on the single retry exactly when the channel reports open at the retry
observation; otherwise it gives up silently — there is no third attempt
and no error outcome. -/
theorem c9_sendCaption_retry_once (ready0 ready1 : Option String) :
    (sendCaption ready0 ready1 = SendOutcome.sentNow ↔ ready0 = some "open") ∧
      (sendCaption ready0 ready1 = SendOutcome.sentOnRetry ↔
        ready0 ≠ some "open" ∧ ready1 = some "open") ∧
      (sendCaption ready0 ready1 = SendOutcome.gaveUp ↔
        ready0 ≠ some "open" ∧ ready1 ≠ some "open") := by
  unfold sendCaption
  split_ifs with h1 h2 <;> simp_all

/-!
C6 and C7: translation relay.
-/

/-- transInit: the relay state before any caption arrives. -/
def transInit : TransState := ⟨"", none, [], 0, false⟩

/-- c6Events5: two captions are issued and dispatched (requests 0 and 1),
then the response of the later request 1 resolves first. -/
def c6Events5 : List TransEvent :=
  [.issue "hola" "es-ES" "fr", .fire,
   .issue "adios" "es-ES" "fr", .fire,
   .complete 1 "segunda"]

/-- c6Events6: afterwards the stale response of the earlier request 0
resolves. -/
def c6Events6 : List TransEvent :=
  c6Events5 ++ [.complete 0 "primera"]

/-- C6 counterexample. The claim says that when two requests resolve out of
order only the later request result is ever displayed and a stale response
never overwrites the display.  On the code there is no sequence check: with
requests 0 and 1 both dispatched, the response of request 1 is displayed
first, and the late response of the earlier request 0 then overwrites it. -/
theorem c6_counterexample :
    (transRun transInit c6Events5).displayed = "segunda" ∧
      (transRun transInit c6Events6).displayed = "primera" := by
  exact ⟨rfl, rfl⟩

/-- C6 (amended): the only out-of-order protection is the debounce: a new
caption replaces a still-pending (not yet dispatched) request, which is
therefore never dispatched; but once requests are in flight, every
response unconditionally overwrites the displayed translation in arrival
order, so a stale response can displace a newer result. -/
theorem c6_translation_completion_order :
    (∀ (s : TransState) (text src tgt : String),
        trimString text ≠ "" → tgt ≠ "en" →
          (transStep s (TransEvent.issue text src tgt)).pending
              = some (s.nextId, ⟨text, src, tgt⟩) ∧
            (transStep s (TransEvent.issue text src tgt)).inFlight = s.inFlight) ∧
      (∀ (s : TransState) (i : Nat) (res : String),
        s.inFlight.any (fun p => p.1 == i) = true →
          (transStep s (TransEvent.complete i res)).displayed = res) := by
  constructor
  · intro s text src tgt ht htgt
    constructor <;> simp [transStep, ht, htgt]
  · intro s i res h
    simp [transStep, h]

/-- C6 witness: with request 0 in flight, its response overwrites the
display even though a newer value is shown. -/
theorem c6_witness :
    (transStep ⟨"newer", none, [(0, ⟨"hola", "es", "fr"⟩)], 1, true⟩
        (TransEvent.complete 0 "stale")).displayed = "stale" :=
  c6_translation_completion_order.2
    ⟨"newer", none, [(0, ⟨"hola", "es", "fr"⟩)], 1, true⟩ 0 "stale" (by decide)

/-- cs7state: a session whose translation target is English. -/
def cs7state : SessionState :=
  { baseState with
    role := some .guest
    phase := .connected
    translationLanguage := "en"
    dataChannel := some "open" }

/-- C7 counterexample. The claim says a translation request is scheduled
exactly when the configured target language differs from the message
source language.  Concretely, with target en and a caption in fr-FR the
languages differ, yet the handler schedules nothing (the debounce ref
stays empty) and clears the displayed translation: the trigger in the code
is target not equal to en, not target not equal to source. -/
theorem c7_counterexample :
    ("en" : String) ≠ "fr-FR" ∧
      (onCaptionMessage cs7state (WireMsg.parsed "caption" "bonjour" "fr-FR" 0)).pendingTranslation
          = none ∧
        (onCaptionMessage cs7state (WireMsg.parsed "caption" "bonjour" "fr-FR" 0)).remoteCaptionTranslated
          = "" := by
  refine ⟨by decide, rfl, rfl⟩

/-- C7 (amended): on a caption message, a debounced translation request is
armed exactly when the configured target language is truthy and not en and
the caption text is not blank (first conjunct: it is armed, carrying the
message text, its language and the current target); when the target is en
nothing is scheduled and the displayed translation is cleared (second
conjunct); and the dispatched translateText makes an outbound call exactly
when source and target differ, the text is not blank, and their base
language codes differ — when the base codes coincide it returns the text
unchanged with no remote call (third conjunct). -/
theorem c7_translation_scheduling :
    (∀ (s : SessionState) (text lang : String) (ts : Int),
        s.translationLanguage ≠ "" → s.translationLanguage ≠ "en" → trimString text ≠ "" →
          (onCaptionMessage s (WireMsg.parsed "caption" text lang ts)).pendingTranslation
            = some ⟨text, lang, s.translationLanguage⟩) ∧
      (∀ (s : SessionState) (text lang : String) (ts : Int),
        s.translationLanguage = "en" →
          (onCaptionMessage s (WireMsg.parsed "caption" text lang ts)).pendingTranslation
              = s.pendingTranslation ∧
            (onCaptionMessage s (WireMsg.parsed "caption" text lang ts)).remoteCaptionTranslated
              = "") ∧
      (∀ (r : RemoteResult) (text src tgt : String),
        (translateText r text src tgt).2 = true ↔
          ¬(src = tgt ∨ trimString text = "") ∧ baseLang src ≠ baseLang tgt) := by
  refine ⟨?_, ?_, ?_⟩
  · intro s text lang ts h1 h2 h3
    simp [onCaptionMessage, translateRemoteCaption, h1, h2, h3]
  · intro s text lang ts h
    constructor <;> simp [onCaptionMessage, translateRemoteCaption, h]
  · intro r text src tgt
    unfold translateText
    split_ifs with h1 h2 <;> cases r <;> simp_all

/-- C7 witness: with target fr and a caption in es-ES, a debounced request
carrying those languages is armed. -/
theorem c7_witness :
    (onCaptionMessage { baseState with translationLanguage := "fr" }
        (WireMsg.parsed "caption" "hola" "es-ES" 0)).pendingTranslation
      = some ⟨"hola", "es-ES", "fr"⟩ :=
  c7_translation_scheduling.1 { baseState with translationLanguage := "fr" }
    "hola" "es-ES" 0 (by decide) (by decide) (by decide)

/-!
C1 and C2: signaling call guards.
-/

/-- C1: once the host has an offer payload, or the peer connection already
carries a local description, a further createOffer call fails with one of
the two already-offered messages and leaves the offer payload, the phase
and the peer connection untouched: createOffer succeeds at most once per
session. -/
theorem c1_createOffer_at_most_once (s : SessionState) (env : OfferEnv)
    (hrole : s.role = some Role.host)
    (h : s.offerPayload ≠ [] ∨ ∃ p, s.pc = some p ∧ p.localDesc.isSome = true) :
    ((createOffer s env).error = some CallError.alreadyOffered ∨
        (createOffer s env).error = some CallError.offerAlreadyCreated) ∧
      (createOffer s env).offerPayload = s.offerPayload ∧
      (createOffer s env).phase = s.phase ∧
      (createOffer s env).pc = s.pc := by
  by_cases hpay : s.offerPayload = []
  · rcases h with h | ⟨p, hpc, hld⟩
    · exact absurd hpay h
    · refine ⟨Or.inr ?_, ?_, ?_, ?_⟩ <;>
        simp [createOffer, ensurePeerConnection, hrole, hpay, hpc, hld]
  · refine ⟨Or.inl ?_, ?_, ?_, ?_⟩ <;> simp [createOffer, hrole, hpay]

/-- C1 witness: a second createOffer at the connected host state (offer
payload present, local description set) is rejected without mutation. -/
theorem c1_witness :
    (((createOffer exConnected ⟨false, exampleDesc⟩).error
          = some CallError.alreadyOffered ∨
        (createOffer exConnected ⟨false, exampleDesc⟩).error
          = some CallError.offerAlreadyCreated) ∧
      (createOffer exConnected ⟨false, exampleDesc⟩).offerPayload
          = exConnected.offerPayload ∧
      (createOffer exConnected ⟨false, exampleDesc⟩).phase = exConnected.phase ∧
      (createOffer exConnected ⟨false, exampleDesc⟩).pc = exConnected.pc) :=
  c1_createOffer_at_most_once exConnected ⟨false, exampleDesc⟩ rfl
    (Or.inl (by decide))

/-- cs2state: a host whose answer has already been applied and whose
transport reports connected, but whose phase lags at waiting-answer. -/
def cs2state : SessionState :=
  { baseState with
    role := some Role.host
    phase := .waitingAnswer
    offerPayload := encode exampleDesc
    pc := some pcAnswered
    localStream := some [1]
    dataChannel := some "open" }

/-- C2 counterexample. The claim says every precondition-violating call
leaves the phase unchanged.  At a host state where a remote description is
already applied and the ice connection state reports connected, a second
applyRemoteAnswer sets the already-applied error but also moves the phase
from waiting-answer to connected: an error branch that mutates the
phase. -/
theorem c2_counterexample :
    (applyRemoteAnswer cs2state [] ⟨false⟩).error = some CallError.alreadyApplied ∧
      cs2state.phase = CallPhase.waitingAnswer ∧
      (applyRemoteAnswer cs2state [] ⟨false⟩).phase = CallPhase.connected := by
  refine ⟨rfl, rfl, rfl⟩

/-- C2 (amended): applyRemoteAnswer succeeds exactly when the role is
host, a local offer exists, no remote description is applied yet, the
payload decodes, and the signaling state is have-local-offer; each
violated precondition yields its matching error, and every error branch
leaves the phase unchanged except the already-applied branch, which
additionally sets the phase to connected when the transport already
reports connected or completed.  Conjuncts: (1) role mismatch, (2)
already applied, with the phase connected exactly when ice reports
connected or completed, (3) no peer connection yet and (4) no local
description yield the no-offer-yet error, (5) undecodable payload, (6)
wrong negotiation state, (7) the success case sets the remote description
and the connected phase. -/
theorem c2_applyRemoteAnswer_preconditions :
    (∀ (s : SessionState) (i : List Char) (e : AnswerEnv),
        s.role ≠ some Role.host →
          applyRemoteAnswer s i e = { s with error := some CallError.roleMismatchHost }) ∧
      (∀ (s : SessionState) (i : List Char) (e : AnswerEnv) (p : PeerConn),
        s.role = some Role.host → s.pc = some p → p.remoteDesc.isSome = true →
          (applyRemoteAnswer s i e).error = some CallError.alreadyApplied ∧
            (applyRemoteAnswer s i e).phase =
              (if p.iceConn = "connected" ∨ p.iceConn = "completed" then
                CallPhase.connected else s.phase) ∧
            (applyRemoteAnswer s i e).pc = s.pc ∧
            (applyRemoteAnswer s i e).offerPayload = s.offerPayload) ∧
      (∀ (s : SessionState) (i : List Char) (e : AnswerEnv),
        s.role = some Role.host → s.pc = none →
          (applyRemoteAnswer s i e).error = some CallError.noOfferYet ∧
            (applyRemoteAnswer s i e).phase = s.phase) ∧
      (∀ (s : SessionState) (i : List Char) (e : AnswerEnv) (p : PeerConn),
        s.role = some Role.host → s.pc = some p → p.remoteDesc = none →
          p.localDesc = none →
            (applyRemoteAnswer s i e).error = some CallError.noOfferYet ∧
              (applyRemoteAnswer s i e).phase = s.phase) ∧
      (∀ (s : SessionState) (i : List Char) (e : AnswerEnv) (p : PeerConn),
        s.role = some Role.host → s.pc = some p → p.remoteDesc = none →
          p.localDesc.isSome = true → decode i = none →
            (applyRemoteAnswer s i e).error = some CallError.invalidPayload ∧
              (applyRemoteAnswer s i e).phase = s.phase) ∧
      (∀ (s : SessionState) (i : List Char) (e : AnswerEnv) (p : PeerConn)
          (a : SessionDesc),
        s.role = some Role.host → s.pc = some p → p.remoteDesc = none →
          p.localDesc.isSome = true → decode i = some a →
            p.signaling ≠ "have-local-offer" →
              (applyRemoteAnswer s i e).error = some CallError.wrongNegotiationState ∧
                (applyRemoteAnswer s i e).phase = s.phase) ∧
      (∀ (s : SessionState) (i : List Char) (e : AnswerEnv) (p : PeerConn)
          (a : SessionDesc),
        s.role = some Role.host → s.pc = some p → p.remoteDesc = none →
          p.localDesc.isSome = true → decode i = some a →
            p.signaling = "have-local-offer" → e.applyFails = false →
              (applyRemoteAnswer s i e).phase = CallPhase.connected ∧
                (applyRemoteAnswer s i e).pc =
                  some { p with remoteDesc := some a, signaling := "stable" } ∧
                (applyRemoteAnswer s i e).error = s.error) := by
  refine ⟨?_, ?_, ?_, ?_, ?_, ?_, ?_⟩
  · intro s i e h
    simp [applyRemoteAnswer, h]
  · intro s i e p hr hpc hrd
    refine ⟨?_, ?_, ?_, ?_⟩ <;>
      simp [applyRemoteAnswer, ensurePeerConnection, hr, hpc, hrd] <;>
      split_ifs <;> simp
  · intro s i e hr hpc
    constructor <;> simp [applyRemoteAnswer, ensurePeerConnection, hr, hpc]
  · intro s i e p hr hpc hrd hld
    constructor <;> simp [applyRemoteAnswer, ensurePeerConnection, hr, hpc, hrd, hld]
  · intro s i e p hr hpc hrd hld hdec
    have hne : p.localDesc ≠ none := Option.isSome_iff_ne_none.mp hld
    constructor <;>
      simp [applyRemoteAnswer, ensurePeerConnection, hr, hpc, hrd, hne, hdec]
  · intro s i e p a hr hpc hrd hld hdec hsig
    have hne : p.localDesc ≠ none := Option.isSome_iff_ne_none.mp hld
    constructor <;>
      simp [applyRemoteAnswer, ensurePeerConnection, hr, hpc, hrd, hne, hdec, hsig]
  · intro s i e p a hr hpc hrd hld hdec hsig hfail
    have hne : p.localDesc ≠ none := Option.isSome_iff_ne_none.mp hld
    refine ⟨?_, ?_, ?_⟩ <;>
      simp [applyRemoteAnswer, ensurePeerConnection, hr, hpc, hrd, hne, hdec, hsig,
        hfail]

/-- C2 witness: a guest invoking applyRemoteAnswer gets the role mismatch
error and an otherwise untouched state. -/
theorem c2_witness :
    applyRemoteAnswer { baseState with role := some Role.guest } [] ⟨false⟩
      = { { baseState with role := some Role.guest } with
          error := some CallError.roleMismatchHost } :=
  c2_applyRemoteAnswer_preconditions.1 { baseState with role := some Role.guest } []
    ⟨false⟩ (by decide)

/-!
C3: codec lemmas.
-/

/-- parseLit consumes exactly the literal it was given. -/
theorem parseLit_self (l rest : List Char) : parseLit l (l ++ rest) = some rest := by
  induction l with
  | nil => rfl
  | cons c cs ih => simp [parseLit, ih]

/-- parseStringBody on a closing quote. -/
theorem parseStringBody_quote (rest : List Char) :
    parseStringBody ('\"' :: rest) = some ([], rest) := by
  rw [parseStringBody.eq_def]
  simp

/-- parseStringBody across one escape pair. -/
theorem parseStringBody_esc (e u : Char) (t rest res : List Char)
    (hu : unescChar e = some u) (ih : parseStringBody t = some (res, rest)) :
    parseStringBody ('\\' :: e :: t) = some (u :: res, rest) := by
  rw [parseStringBody.eq_def]
  simp [hu, ih]

/-- parseStringBody across one literal character. -/
theorem parseStringBody_lit (c : Char) (t rest res : List Char)
    (h1 : ¬ c = '\"') (h2 : ¬ c = '\\')
    (ih : parseStringBody t = some (res, rest)) :
    parseStringBody (c :: t) = some (c :: res, rest) := by
  rw [parseStringBody.eq_def]
  simp [h1, h2, ih]

/-- parseStringBody undoes escape up to the closing quote. -/
theorem parseStringBody_escape (s rest : List Char) :
    parseStringBody (escape s ++ '\"' :: rest) = some (s, rest) := by
  induction s with
  | nil => simpa [escape] using parseStringBody_quote rest
  | cons c cs ih =>
      by_cases h1 : c = '\"'
      · subst h1
        simpa [escape, escChar] using
          parseStringBody_esc '\"' '\"' (escape cs ++ '\"' :: rest) rest cs
            (by decide) ih
      · by_cases h2 : c = '\\'
        · subst h2
          simpa [escape, escChar] using
            parseStringBody_esc '\\' '\\' (escape cs ++ '\"' :: rest) rest cs
              (by decide) ih
        · by_cases h3 : c = '\n'
          · subst h3
            simpa [escape, escChar] using
              parseStringBody_esc 'n' '\n' (escape cs ++ '\"' :: rest) rest cs
                (by decide) ih
          · by_cases h4 : c = '\r'
            · subst h4
              simpa [escape, escChar] using
                parseStringBody_esc 'r' '\r' (escape cs ++ '\"' :: rest) rest cs
                  (by decide) ih
            · by_cases h5 : c = '\t'
              · subst h5
                simpa [escape, escChar] using
                  parseStringBody_esc 't' '\t' (escape cs ++ '\"' :: rest) rest cs
                    (by decide) ih
              · simpa [escape, escChar, h1, h2, h3, h4, h5] using
                  parseStringBody_lit c (escape cs ++ '\"' :: rest) rest cs h1 h2 ih

/-- encodeMid: the serialized object between the outer braces. -/
def encodeMid (d : SessionDesc) : List Char :=
  typeKeyTail ++ escape d.descType ++ '\"' :: sdpKey ++ escape d.sdp ++ ['\"']

/-- encode followed by any tail, rewritten into the canonical
brace-delimited shape. -/
theorem encode_append (d : SessionDesc) (post : List Char) :
    encode d ++ post = '\x7b' :: (encodeMid d ++ '\x7d' :: post) := by
  simp [encode, encodeMid, typeKey, List.append_assoc]

/-- parseDesc inverts encode. -/
theorem parseDesc_encode (d : SessionDesc) : parseDesc (encode d) = some d := by
  have h : encode d
      = typeKey ++ (escape d.descType
          ++ '\"' :: (sdpKey ++ (escape d.sdp ++ '\"' :: ['\x7d']))) := by
    simp [encode, List.append_assoc]
  unfold parseDesc
  rw [h]
  simp only [parseLit_self, parseStringBody_escape]
  simp

/-- dropWhile distributes over an append whose boundary element stops
it. -/
theorem dropWhile_append_stop (p : Char → Bool) (pre rest : List Char) (x : Char)
    (hx : p x = false) :
    (pre ++ x :: rest).dropWhile p = pre.dropWhile p ++ x :: rest := by
  induction pre with
  | nil => simp [List.dropWhile, hx]
  | cons a t ih =>
      by_cases ha : p a
      · simp [List.dropWhile, ha, ih]
      · simp [List.dropWhile, ha]

/-- Members of dropWhile are members of the original list. -/
theorem mem_of_mem_dropWhile (p : Char → Bool) (l : List Char) (c : Char)
    (h : c ∈ l.dropWhile p) : c ∈ l := by
  induction l with
  | nil => simp [List.dropWhile] at h
  | cons a t ih =>
      by_cases ha : p a
      · simp only [List.dropWhile, ha] at h
        exact List.mem_cons_of_mem a (ih (by simp only [h]))
      · simpa [List.dropWhile, ha] using h

/-- The head of a dropWhile result fails the predicate. -/
theorem dropWhile_head_not (p : Char → Bool) (l : List Char) (c : Char)
    (t : List Char) (h : l.dropWhile p = c :: t) : p c = false := by
  induction l with
  | nil => simp [List.dropWhile] at h
  | cons a u ih =>
      by_cases ha : p a
      · exact ih (by simpa [List.dropWhile, ha] using h)
      · simp only [List.dropWhile, ha] at h
        simp only [Bool.not_eq_true] at ha
        cases h
        exact ha

/-- trimJs on a brace-delimited middle only trims the two junk sides. -/
theorem trimJs_wrap (P mid Q : List Char) :
    trimJs (P ++ '\x7b' :: (mid ++ '\x7d' :: Q))
      = P.dropWhile isJsSpace
          ++ '\x7b' :: (mid ++ '\x7d' :: (Q.reverse.dropWhile isJsSpace).reverse) := by
  have h1 : (P ++ '\x7b' :: (mid ++ '\x7d' :: Q)).dropWhile isJsSpace
      = P.dropWhile isJsSpace ++ '\x7b' :: (mid ++ '\x7d' :: Q) :=
    dropWhile_append_stop isJsSpace P _ '\x7b' (by decide)
  have h2 : (P.dropWhile isJsSpace ++ '\x7b' :: (mid ++ '\x7d' :: Q)).reverse
      = Q.reverse
          ++ '\x7d' :: (mid.reverse ++ '\x7b' :: (P.dropWhile isJsSpace).reverse) := by
    simp
  have h3 : (Q.reverse
        ++ '\x7d' :: (mid.reverse ++ '\x7b' :: (P.dropWhile isJsSpace).reverse)).dropWhile
          isJsSpace
      = Q.reverse.dropWhile isJsSpace
          ++ '\x7d' :: (mid.reverse ++ '\x7b' :: (P.dropWhile isJsSpace).reverse) :=
    dropWhile_append_stop isJsSpace _ _ '\x7d' (by decide)
  unfold trimJs
  rw [h1, h2, h3]
  simp

/-- After a whitespace trim from the left, stripBom is the identity: the
byte order mark counts as JavaScript whitespace, so it cannot head the
dropWhile result, and the brace heading the empty-junk case is not a byte
order mark either. -/
theorem stripBom_after_trim (P R : List Char) :
    stripBom (P.dropWhile isJsSpace ++ '\x7b' :: R)
      = P.dropWhile isJsSpace ++ '\x7b' :: R := by
  cases hP : P.dropWhile isJsSpace with
  | nil => simp [stripBom]
  | cons c t =>
      have hc : isJsSpace c = false := dropWhile_head_not isJsSpace P c t hP
      have hcb : c ≠ '\uFEFF' := by
        intro hh
        rw [hh] at hc
        simp [isJsSpace] at hc
      simp [stripBom, hcb]

/-- All elements satisfying the predicate make dropWhile drop
everything. -/
theorem dropWhile_eq_nil_of_all (p : Char → Bool) (l : List Char)
    (h : ∀ c ∈ l, p c = true) : l.dropWhile p = [] :=
  List.dropWhile_eq_nil_iff.mpr h

/-- extractBraces on junk-wrapped brace-delimited content returns exactly
the content from its first brace to its last: with brace-free junk on both
sides this is the whole object. -/
theorem extractBraces_wrap (P mid Q : List Char)
    (hP : '\x7b' ∉ P) (hQ : '\x7d' ∉ Q) :
    extractBraces (P ++ '\x7b' :: (mid ++ '\x7d' :: Q))
      = '\x7b' :: (mid ++ ['\x7d']) := by
  have hPnil : P.dropWhile (fun c => c != '\x7b') = [] := by
    refine dropWhile_eq_nil_of_all _ _ fun c hc => ?_
    simp only [bne_iff_ne, ne_eq, decide_eq_true_eq]
    intro hh
    exact hP (hh ▸ hc)
  have hQnil : Q.reverse.dropWhile (fun c => c != '\x7d') = [] := by
    refine dropWhile_eq_nil_of_all _ _ fun c hc => ?_
    simp only [bne_iff_ne, ne_eq, decide_eq_true_eq]
    intro hh
    exact hQ (hh ▸ (List.mem_reverse.mp hc))
  have h1 : (P ++ '\x7b' :: (mid ++ '\x7d' :: Q)).dropWhile (fun c => c != '\x7b')
      = '\x7b' :: (mid ++ '\x7d' :: Q) := by
    rw [dropWhile_append_stop _ _ _ '\x7b' (by decide), hPnil]
    simp
  have h2 : ('\x7b' :: (mid ++ '\x7d' :: Q)).reverse
      = Q.reverse ++ '\x7d' :: (mid.reverse ++ ['\x7b']) := by
    simp
  have h3 : (Q.reverse ++ '\x7d' :: (mid.reverse ++ ['\x7b'])).dropWhile
        (fun c => c != '\x7d')
      = '\x7d' :: (mid.reverse ++ ['\x7b']) := by
    rw [dropWhile_append_stop _ _ _ '\x7d' (by decide), hQnil]
    simp
  unfold extractBraces
  simp only [h1, h2, h3]
  simp

/-- A successful parseLit means the input was the literal followed by the
remainder. -/
theorem parseLit_eq (l : List Char) : ∀ (t r : List Char),
    parseLit l t = some r → t = l ++ r := by
  induction l with
  | nil =>
      intro t r h
      simp [parseLit] at h
      simp [h]
  | cons c cs ih =>
      intro t r h
      cases t with
      | nil => simp [parseLit] at h
      | cons t0 ts =>
          by_cases he : t0 = c
          · subst he
            have hts := ih ts r (by simpa [parseLit] using h)
            simp [hts]
          · simp [parseLit, he] at h

/-- A successful parseStringBody leaves a suffix of its input. -/
theorem parseStringBody_suffix (t : List Char) : ∀ (s r : List Char),
    parseStringBody t = some (s, r) → ∃ u, t = u ++ r := by
  induction t using parseStringBody.induct with
  | case1 =>
      intro s r h
      rw [parseStringBody.eq_def] at h
      simp at h
  | case2 rest =>
      intro s r h
      rw [parseStringBody.eq_def] at h
      simp at h
      exact ⟨['\"'], by simp [h.2]⟩
  | case3 hne =>
      intro s r h
      rw [parseStringBody.eq_def] at h
      simp at h
  | case4 e rest2 hu hne =>
      intro s r h
      rw [parseStringBody.eq_def] at h
      simp [hu] at h
  | case5 e rest2 u hu hnone hne ih =>
      intro s r h
      rw [parseStringBody.eq_def] at h
      simp [hu, hnone] at h
  | case6 e rest2 u hu sctx r0 hsome hne ih =>
      intro s r h
      rw [parseStringBody.eq_def] at h
      simp [hu, hsome] at h
      obtain ⟨u0, hu0⟩ := ih sctx r0 hsome
      exact ⟨'\\' :: e :: u0, by simp [hu0, h.2]⟩
  | case7 e rest2 h1 h2 hnone ih =>
      intro s r h
      rw [parseStringBody.eq_def] at h
      simp [h1, h2, hnone] at h
  | case8 e rest2 h1 h2 sctx r0 hsome ih =>
      intro s r h
      rw [parseStringBody.eq_def] at h
      simp [h1, h2, hsome] at h
      obtain ⟨u0, hu0⟩ := ih sctx r0 hsome
      exact ⟨e :: u0, by simp [hu0, h.2]⟩

/-- A successfully parsed payload contains both an opening and a closing
brace. -/
theorem parseDesc_braces (t : List Char) (d : SessionDesc)
    (h : parseDesc t = some d) : '\x7b' ∈ t ∧ '\x7d' ∈ t := by
  unfold parseDesc at h
  split at h
  · simp at h
  next t1 h1 =>
    split at h
    · simp at h
    next ty t2 h2 =>
      split at h
      · simp at h
      next t3 h3 =>
        split at h
        · simp at h
        next sd t4 h4 =>
          split at h
          next h5 =>
            have e1 := parseLit_eq typeKey t t1 h1
            obtain ⟨u1, e2⟩ := parseStringBody_suffix t1 ty t2 h2
            have e3 := parseLit_eq sdpKey t2 t3 h3
            obtain ⟨u2, e4⟩ := parseStringBody_suffix t3 sd t4 h4
            subst h5
            constructor
            · rw [e1]
              simp [typeKey]
            · rw [e1, e2, e3, e4]
              simp
          next h5 => simp at h

/-- Members of trimJs are members of the original list. -/
theorem mem_trimJs (l : List Char) (c : Char) (h : c ∈ trimJs l) : c ∈ l := by
  unfold trimJs at h
  rw [List.mem_reverse] at h
  have h1 := mem_of_mem_dropWhile _ _ _ h
  rw [List.mem_reverse] at h1
  exact mem_of_mem_dropWhile _ _ _ h1

/-- Members of stripBom are members of the original list. -/
theorem mem_stripBom (l : List Char) (c : Char) (h : c ∈ stripBom l) : c ∈ l := by
  cases l with
  | nil => simp [stripBom] at h
  | cons a t =>
      by_cases ha : a = '\uFEFF'
      · subst ha
        simp only [stripBom, if_pos rfl] at h
        exact List.mem_cons_of_mem _ h
      · simpa [stripBom, ha] using h

/-- Members of extractBraces are members of the original list. -/
theorem mem_extractBraces (l : List Char) (c : Char) (h : c ∈ extractBraces l) :
    c ∈ l := by
  simp only [extractBraces] at h
  split at h
  · exact h
  · rw [List.mem_reverse] at h
    have h1 := mem_of_mem_dropWhile _ _ _ h
    rw [List.mem_reverse] at h1
    exact mem_of_mem_dropWhile _ _ _ h1

/-- A decodable payload contains both braces. -/
theorem decode_braces (t : List Char) (d : SessionDesc) (h : decode t = some d) :
    '\x7b' ∈ t ∧ '\x7d' ∈ t := by
  unfold decode at h
  have hb := parseDesc_braces _ _ h
  exact ⟨mem_trimJs _ _ (mem_stripBom _ _ (mem_extractBraces _ _ hb.1)),
    mem_trimJs _ _ (mem_stripBom _ _ (mem_extractBraces _ _ hb.2))⟩

/-- C3 (amended): the codec round-trips — decoding the encoded payload
reproduces the description — and this still holds with junk around the
payload (leading or trailing whitespace, a byte order mark, surrounding
text) provided the junk contains no brace characters, because the decoder
extracts the span from the first opening brace to the last closing brace
(a greedy match), not the first balanced brace-delimited structure;
decoding of empty input fails, and decoding of any input missing an
opening or a closing brace (in particular every unbalanced-brace prefix
of a payload) fails. -/
theorem c3_codec_roundtrip :
    (∀ (d : SessionDesc) (pre post : List Char), safeDesc d → braceFree pre →
        braceFree post → decode (pre ++ encode d ++ post) = some d) ∧
      decode [] = none ∧
      (∀ t : List Char, '\x7b' ∉ t ∨ '\x7d' ∉ t → decode t = none) := by
  refine ⟨?_, by decide, ?_⟩
  · intro d pre post hd hpre hpost
    have hshape : pre ++ encode d ++ post
        = pre ++ '\x7b' :: (encodeMid d ++ '\x7d' :: post) := by
      rw [List.append_assoc, encode_append]
    have htrim := trimJs_wrap pre (encodeMid d) post
    have hP2 : '\x7b' ∉ pre.dropWhile isJsSpace := fun hm =>
      hpre.1 (mem_of_mem_dropWhile _ _ _ hm)
    have hQ2 : '\x7d' ∉ (post.reverse.dropWhile isJsSpace).reverse := fun hm =>
      hpost.2 (List.mem_reverse.mp
        (mem_of_mem_dropWhile _ _ _ (List.mem_reverse.mp hm)))
    have hextract := extractBraces_wrap (pre.dropWhile isJsSpace) (encodeMid d)
      ((post.reverse.dropWhile isJsSpace).reverse) hP2 hQ2
    have henc : '\x7b' :: (encodeMid d ++ ['\x7d']) = encode d := by
      have h0 := encode_append d []
      simp only [List.append_nil] at h0
      exact h0.symm
    unfold decode
    rw [hshape, htrim, stripBom_after_trim, hextract, henc, parseDesc_encode]
  · intro t ht
    cases hdec : decode t with
    | none => rfl
    | some d =>
        have hb := decode_braces t d hdec
        rcases ht with ht | ht
        · exact absurd hb.1 ht
        · exact absurd hb.2 ht

/-- c3BadDesc: a small valid description. -/
def c3BadDesc : SessionDesc := ⟨"answer".toList, "s".toList⟩

/-- c3BadInput: the encoding of c3BadDesc — one balanced brace-delimited
JSON object — followed by extraneous text that contains a closing
brace. -/
def c3BadInput : List Char := encode c3BadDesc ++ [' ', '\x7d']

/-- C3 counterexample. The claim says decoding succeeds on extraneous
surrounding text around one balanced brace-delimited JSON object because
the decoder extracts the first balanced structure.  The decoder actually
extracts the greedy span from the first opening to the last closing brace:
the object alone decodes (first conjunct), but with trailing junk
containing a closing brace the greedy span is not valid JSON and decoding
fails (second conjunct). -/
theorem c3_counterexample :
    decode (encode c3BadDesc) = some c3BadDesc ∧ decode c3BadInput = none := by
  constructor <;> decide

/-- c3WitDesc: a description whose sdp body uses escapes. -/
def c3WitDesc : SessionDesc := ⟨"offer".toList, "v=0\r\na=x".toList⟩

/-- c3WitPre: byte order mark, whitespace and brace-free text before the
payload. -/
def c3WitPre : List Char := '\uFEFF' :: " paste below ".toList

/-- c3WitPost: brace-free text after the payload. -/
def c3WitPost : List Char := " sent from my phone ".toList

/-- C3 witness: the wrapped payload decodes back to the description. -/
theorem c3_witness :
    decode (c3WitPre ++ encode c3WitDesc ++ c3WitPost) = some c3WitDesc :=
  c3_codec_roundtrip.1 c3WitDesc c3WitPre c3WitPost (by decide) (by decide)
    (by decide)

/-- C9 witness: a channel that is not yet open at the first observation but
open at the retry observation yields exactly the retry send. -/
theorem c9_witness :
    sendCaption (some "connecting") (some "open") = SendOutcome.sentOnRetry :=
  ((c9_sendCaption_retry_once (some "connecting") (some "open")).2.1).mpr
    ⟨by decide, rfl⟩
